import Mathlib

/-!
Verification development for the Observable gem refactoring agent
(`refactoring_agent/agent_system.py` and
`refactoring_agent/gem_refactor_runner.py`).

The Python source is shallowly embedded: pure string processing becomes
Lean functions on `String`/`List Char`, the filesystem becomes an explicit
map from canonical POSIX paths to file contents, the external model and
the external subprocess become oracle parameters, and every embedded
function is executable (structural recursion only, so concrete instances
evaluate by kernel reduction).
-/

/-! ## Python string primitives

Helpers mirroring the Python `str` methods used by the source
(`str.strip`, `str.replace`, `str.startswith`, `str.split('\n')`,
`str.lower`, the `in` substring test).  All are written with structural
recursion so that `decide`/`rfl` can evaluate them in the kernel. -/

/-- Characters stripped by Python `str.strip()` (the ASCII whitespace
subset; the source only ever strips protocol lines, which are ASCII). -/
def pyIsSpace (c : Char) : Bool :=
  c == ' ' || c == '\t' || c == '\n' || c == '\r' ||
  c == Char.ofNat 11 || c == Char.ofNat 12

/-- Python `s.strip()`: drop leading and trailing whitespace. -/
def pystrip (s : String) : String :=
  String.mk ((((s.data.dropWhile pyIsSpace).reverse).dropWhile pyIsSpace).reverse)

/-- Worker for `pyreplace`.  The fuel argument starts at the length of the
text, which bounds the number of steps; every step consumes at least one
character, so the result equals Python's `str.replace` for nonempty
patterns. -/
def pyreplaceAux (pat new : List Char) : Nat → List Char → List Char
  | _, [] => []
  | 0, l => l
  | fuel + 1, c :: rest =>
    if !pat.isEmpty && pat.isPrefixOf (c :: rest) then
      new ++ pyreplaceAux pat new fuel (rest.drop (pat.length - 1))
    else
      c :: pyreplaceAux pat new fuel rest

/-- Python `s.replace(pat, new)`: replace every non-overlapping
occurrence, scanning left to right. -/
def pyreplace (s pat new : String) : String :=
  String.mk (pyreplaceAux pat.data new.data s.data.length s.data)

/-- Python `s.startswith(pre)`. -/
def pyStartsWith (s pre : String) : Bool :=
  pre.data.isPrefixOf s.data

/-- Worker for `pysplitNL`. -/
def splitLinesAux : List Char → List Char → List String
  | [], acc => [String.mk acc.reverse]
  | c :: rest, acc =>
    if c = '\n' then String.mk acc.reverse :: splitLinesAux rest []
    else splitLinesAux rest (c :: acc)

/-- Python `s.split('\n')` (always at least one piece; empty pieces
kept). -/
def pysplitNL (s : String) : List String :=
  splitLinesAux s.data []

/-- Python `s.lower()` (ASCII case folding; the completion phrases the
source compares against are ASCII). -/
def pylower (s : String) : String :=
  String.mk (s.data.map Char.toLower)

/-- Boolean substring test on character lists (Python's `in`). -/
def listInfixB (pat : List Char) : List Char → Bool
  | [] => pat.isEmpty
  | c :: rest => pat.isPrefixOf (c :: rest) || listInfixB pat rest

/-- Python `pat in s` for strings. -/
def strContains (s pat : String) : Bool :=
  listInfixB pat.data s.data

/-! ## POSIX path model

`os.path.isabs`, `os.path.join`, `os.path.normpath` and
`os.path.abspath` on POSIX, restricted to single leading slashes (the
double-slash special case of `normpath` never arises in the claims). -/

/-- `os.path.isabs` on POSIX. -/
def os_isabs (p : String) : Bool :=
  pyStartsWith p "/"

/-- Does the path end in a slash (used by `os.path.join`)? -/
def endsWithSlash (a : String) : Bool :=
  match a.data.getLast? with
  | some c => c = '/'
  | none => false

/-- `os.path.join(a, b)` on POSIX for two components. -/
def os_join (a b : String) : String :=
  if os_isabs b then b
  else if a = "" then b
  else if endsWithSlash a then a ++ b
  else a ++ "/" ++ b

/-- Stack-based resolver for `os.path.normpath`: processes the
slash-separated components, dropping `""` and `"."`, and resolving
`".."` against the stack (POSIX semantics: `".."` at the root of an
absolute path disappears; leading `".."`s of a relative path are
kept). -/
def normAux (isAbs : Bool) : List String → List String → List String
  | stack, [] => stack.reverse
  | stack, c :: cs =>
    if c = "" || c = "." then normAux isAbs stack cs
    else if c = ".." then
      match stack with
      | [] => if isAbs then normAux isAbs [] cs else normAux isAbs [".."] cs
      | top :: rest =>
        if top = ".." then normAux isAbs (".." :: top :: rest) cs
        else normAux isAbs rest cs
    else normAux isAbs (c :: stack) cs

/-- Render a component list with `/` separators. -/
def joinSlash : List String → String
  | [] => ""
  | [x] => x
  | x :: xs => x ++ "/" ++ joinSlash xs

/-- Split a path on `/` (structural worker, Python-style split). -/
def splitSlashAux : List Char → List Char → List String
  | [], acc => [String.mk acc.reverse]
  | c :: rest, acc =>
    if c = '/' then String.mk acc.reverse :: splitSlashAux rest []
    else splitSlashAux rest (c :: acc)

/-- Split a path string on `/`. -/
def splitSlash (s : String) : List String :=
  splitSlashAux s.data []

/-- `os.path.normpath` on POSIX. -/
def os_normpath (p : String) : String :=
  if p = "" then "."
  else
    let isAbs := os_isabs p
    let comps := normAux isAbs [] (splitSlash p)
    if isAbs then "/" ++ joinSlash comps
    else if comps = [] then "." else joinSlash comps

/-- `os.path.abspath(p)` = `normpath(join(cwd, p))`; the process working
directory is passed explicitly. -/
def os_abspath (cwd p : String) : String :=
  os_normpath (os_join cwd p)

/-! ## Filesystem and tool results

The filesystem is a map from canonical absolute paths to file contents.
Only regular files are modeled (every present path is a file), which is
the granularity the claims need; `os.makedirs` is implicit.  A
`ToolResult` keeps the fields the claims branch on (`success`, `error`,
`content`); presentation-only fields of the Python result dicts
(`message`, `file_size`, `bytes_written`, ...) are omitted. -/

/-- The filesystem: canonical absolute path to file contents (the raw
bytes, as written). -/
abbrev FS := String → Option String

/-- Update the filesystem at one path. -/
def fsWrite (fs : FS) (path content : String) : FS :=
  fun q => if q = path then some content else fs q

structure ToolResult where
  success : Bool
  error : Option String := none
  content : Option String := none
deriving DecidableEq

/-- Python truthiness of the optional `workspace_dir` argument
(`None` and `""` are falsy). -/
def wsTruthy : Option String → Bool
  | none => false
  | some s => !(s == "")

/-- Universal-newline translation applied by CPython when reading a file
in text mode with `newline=None` (the source's `open(p, 'r')`):
`"\r\n"` and `"\r"` both become `"\n"`. -/
def univNLAux : List Char → List Char
  | [] => []
  | [c] => [if c = '\r' then '\n' else c]
  | c :: d :: rest =>
    if c = '\r' then
      if d = '\n' then '\n' :: univNLAux rest
      else '\n' :: univNLAux (d :: rest)
    else c :: univNLAux (d :: rest)

/-- Universal-newline translation on strings. -/
def universalNewlines (s : String) : String :=
  String.mk (univNLAux s.data)

/-- The access-denied error literal of `FileReadTool`/`FileWriteTool`. -/
def accessDeniedError : String := "Access denied: file is outside workspace directory"

/-- The not-found error literal of `FileReadTool`. -/
def fileNotFoundError : String := "File not found"

/-- Read the resolved path: the tail of `FileReadTool.execute` after
path resolution (existence check, then text-mode read with
universal-newline translation; on POSIX `open(p, 'w')` wrote the
content unmodified, so the stored bytes are the written string). -/
def readResolved (fs : FS) (full_path : String) : ToolResult :=
  match fs full_path with
  | none => { success := false, error := some fileNotFoundError }
  | some data => { success := true, content := some (universalNewlines data) }

/-- `FileReadTool.execute(file_path, workspace_dir)` from
`agent_system.py`.  An absolute `file_path` under a truthy workspace is
accepted only when it starts with the string `abspath(workspace_dir)`;
a relative `file_path` is joined against the workspace with no
containment check. -/
def FileReadTool.execute (fs : FS) (cwd file_path : String)
    (workspace_dir : Option String) : ToolResult :=
  if wsTruthy workspace_dir && os_isabs file_path then
    if !(pyStartsWith file_path (os_abspath cwd (workspace_dir.getD ""))) then
      { success := false, error := some accessDeniedError }
    else readResolved fs (os_abspath cwd file_path)
  else if wsTruthy workspace_dir then
    readResolved fs (os_abspath cwd (os_join (workspace_dir.getD "") file_path))
  else readResolved fs (os_abspath cwd file_path)

/-- Write the resolved path: the tail of `FileWriteTool.execute`
(`os.makedirs` is implicit in the path-map model; text-mode write on
POSIX stores the string unchanged). -/
def writeResolved (fs : FS) (full_path content : String) : ToolResult × FS :=
  ({ success := true }, fsWrite fs full_path content)

/-- `FileWriteTool.execute(file_path, content, workspace_dir)` from
`agent_system.py`, with the same path-resolution branches as the read
tool. -/
def FileWriteTool.execute (fs : FS) (cwd file_path content : String)
    (workspace_dir : Option String) : ToolResult × FS :=
  if wsTruthy workspace_dir && os_isabs file_path then
    if !(pyStartsWith file_path (os_abspath cwd (workspace_dir.getD ""))) then
      ({ success := false, error := some accessDeniedError }, fs)
    else writeResolved fs (os_abspath cwd file_path) content
  else if wsTruthy workspace_dir then
    writeResolved fs (os_abspath cwd (os_join (workspace_dir.getD "") file_path)) content
  else writeResolved fs (os_abspath cwd file_path) content

/-! ## The shell-command tool

`subprocess.run` is external, so its behaviour is an oracle parameter:
it completed with a return code and output, hit the 60-second timeout
(`subprocess.TimeoutExpired`), or raised some other exception.
Directory existence (`os.path.exists`) is likewise an oracle.  The tool
is a transformer on the ambient process working directory, the one
piece of ambient state the source mutates. -/

inductive CmdRunOutcome where
  | completed (returncode : Int) (stdout stderr : String)
  | timedOut
  | raisedOther (msg : String)
deriving DecidableEq

/-- The timeout error literal of `RunCommandTool`. -/
def commandTimedOutError : String := "Command timed out after 60 seconds"

/-- `RunCommandTool.execute(command, workspace_dir)` from
`agent_system.py`.  Returns the tool result and the process working
directory after the call.  The restore `os.chdir(original_cwd)` is only
on the normal path of the source; the `TimeoutExpired` and generic
exception handlers return without restoring. -/
def RunCommandTool.execute (cwd0 command : String) (workspace_dir : Option String)
    (dirExists : String → Bool) (run : CmdRunOutcome) : ToolResult × String :=
  let original_cwd := cwd0
  let cwd1 :=
    if wsTruthy workspace_dir && dirExists (workspace_dir.getD "") then
      workspace_dir.getD ""
    else cwd0
  match run with
  | .completed rc out err =>
    let cwd2 := if wsTruthy workspace_dir then original_cwd else cwd1
    ({ success := rc == 0, error := some err, content := some out }, cwd2)
  | .timedOut =>
    ({ success := false, error := some commandTimedOutError }, cwd1)
  | .raisedOther msg =>
    ({ success := false, error := some msg }, cwd1)

/-! ## JSON decoding for the PARAMS line

`json.loads` restricted to flat objects with string keys and string
values, which is the fragment the action protocol exercises.  Any other
input (including JSON shapes outside this fragment) is conservatively
rejected, matching the `except json.JSONDecodeError` branch.  String
escapes are not interpreted (none occur in the claims).  Duplicate keys
overwrite, as in a Python dict. -/

abbrev Params := List (String × String)

/-- Left brace / right brace characters (written via code points). -/
def lbrace : Char := Char.ofNat 123

def rbrace : Char := Char.ofNat 125

/-- JSON insignificant whitespace. -/
def jsonWs (c : Char) : Bool :=
  c == ' ' || c == '\t' || c == '\n' || c == '\r'

def skipWs (l : List Char) : List Char :=
  l.dropWhile jsonWs

/-- Scan a JSON string body up to the closing quote. -/
def jstrAux : List Char → List Char → Option (String × List Char)
  | [], _ => none
  | c :: rest, acc =>
    if c = '"' then some (String.mk acc.reverse, rest)
    else jstrAux rest (c :: acc)

/-- Parse a JSON string literal. -/
def parseJString : List Char → Option (String × List Char)
  | [] => none
  | c :: rest => if c = '"' then jstrAux rest [] else none

/-- Python-dict insertion: overwrite an existing key in place, else
append. -/
def setKey (ps : Params) (k v : String) : Params :=
  if ps.any (fun p => p.1 == k) then
    ps.map (fun p => if p.1 == k then (k, v) else p)
  else ps ++ [(k, v)]

/-- Parse the members of a JSON object (after the opening brace).  The
fuel starts above the input length, which bounds the number of
members. -/
def jpairsAux : Nat → List Char → Params → Option Params
  | 0, _, _ => none
  | fuel + 1, l, acc =>
    match parseJString l with
    | none => none
    | some (k, r1) =>
      match skipWs r1 with
      | c :: r2 =>
        if c = ':' then
          match parseJString (skipWs r2) with
          | none => none
          | some (v, r3) =>
            match skipWs r3 with
            | d :: r4 =>
              if d = ',' then jpairsAux fuel (skipWs r4) (setKey acc k v)
              else if d = rbrace then
                if skipWs r4 = [] then some (setKey acc k v) else none
              else none
            | [] => none
        else none
      | [] => none

/-- The model of `json.loads` on the object fragment. -/
def json_loads (s : String) : Option Params :=
  match skipWs s.data with
  | c :: r =>
    if c = lbrace then
      match skipWs r with
      | d :: r2 =>
        if d = rbrace then (if skipWs r2 = [] then some [] else none)
        else jpairsAux (r.length + 1) (skipWs r) []
      | [] => none
    else none
  | [] => none

/-! ## The action-protocol parser

`RefactoringAgent._parse_and_execute_action` (the parsing half): scan
the reply line by line, tracking `action_found`, `tool_name`, `params`
and `reasoning` exactly as the source does.  The JSON decoder is a
parameter so that statements about invalid-JSON handling do not depend
on the exact domain of `json.loads`; `parseAction` instantiates it with
`json_loads`. -/

structure AgentAction where
  tool_name : String
  params : Params
  reasoning : String
deriving DecidableEq

structure PState where
  action_found : Bool
  tool_name : Option String
  params : Params
  reasoning : String
deriving DecidableEq

def initPState : PState := ⟨false, none, [], ""⟩

/-- One iteration of the source's `for i, line in enumerate(lines)`
body. -/
def stepLine (jdec : String → Option Params) (st : PState) (rawLine : String) : PState :=
  let line := pystrip rawLine
  if pyStartsWith line "ACTION:" then
    { st with action_found := true,
              tool_name := some (pystrip (pyreplace line "ACTION:" "")) }
  else if pyStartsWith line "PARAMS:" && st.action_found then
    match jdec (pystrip (pyreplace line "PARAMS:" "")) with
    | some obj => { st with params := obj }
    | none => { st with params := [] }
  else if pyStartsWith line "REASONING:" && st.action_found then
    { st with reasoning := pystrip (pyreplace line "REASONING:" "") }
  else st

/-- The final `if action_found and tool_name:` gate (Python truthiness:
`None` and the empty string fail the gate). -/
def finalize (st : PState) : Option AgentAction :=
  match st.tool_name with
  | some t =>
    if st.action_found && !(t == "") then some ⟨t, st.params, st.reasoning⟩ else none
  | none => none

def parseLinesWith (jdec : String → Option Params) (lines : List String) : Option AgentAction :=
  finalize (lines.foldl (stepLine jdec) initPState)

def parseActionWith (jdec : String → Option Params) (text : String) : Option AgentAction :=
  parseLinesWith jdec (pysplitNL text)

/-- The action parser as the source runs it. -/
def parseAction (text : String) : Option AgentAction :=
  parseActionWith json_loads text

/-! ## The dispatcher

The execution half of `_parse_and_execute_action`.  Each tool's `execute`
body is wrapped in a blanket `except Exception` in the source, so a tool
body never lets an exception out; but the call `execute(**params)` itself
binds the params dict against the tool's signature with **no** guard in
`_parse_and_execute_action`, and a mismatch (missing required argument
or unexpected keyword) raises `TypeError` past the dispatcher.  The
outcome type records exactly this trichotomy. -/

def toolNames : List String :=
  ["read_file", "write_file", "list_directory", "run_command",
   "analyze_ruby_code", "analyze_gem_structure"]

/-- Required (positional, no default) parameters of each tool's
`execute`. -/
def toolRequired : String → List String
  | "read_file" => ["file_path"]
  | "write_file" => ["file_path", "content"]
  | "run_command" => ["command"]
  | "analyze_ruby_code" => ["file_path"]
  | _ => []

/-- All keyword parameters each tool's `execute` accepts. -/
def toolAllowed : String → List String
  | "read_file" => ["file_path", "workspace_dir"]
  | "write_file" => ["file_path", "content", "workspace_dir"]
  | "list_directory" => ["dir_path", "workspace_dir"]
  | "run_command" => ["command", "workspace_dir"]
  | "analyze_ruby_code" => ["file_path", "workspace_dir"]
  | "analyze_gem_structure" => ["workspace_dir"]
  | _ => []

/-- Does `execute(**params)` bind without raising `TypeError`? -/
def bindsOk (tool : String) (ks : List String) : Bool :=
  (toolRequired tool).all (fun r => ks.contains r) &&
  ks.all (fun k => (toolAllowed tool).contains k)

/-- The source's `params['workspace_dir'] = workspace_dir` guarded by
`if workspace_dir:`. -/
def addWorkspace (ps : Params) (ws : Option String) : Params :=
  if wsTruthy ws then setKey ps "workspace_dir" (ws.getD "") else ps

inductive DispatchOutcome where
  /-- `return None`: no action parsed, nothing dispatched. -/
  | noAction
  /-- A record dict was returned: a known tool ran (its own handler
  absorbing any exception of its body), or the unknown-tool failure
  record was produced. -/
  | returned (tool : String) (known : Bool)
  /-- `execute(**params)` raised `TypeError` while binding arguments and
  the exception escaped `_parse_and_execute_action`. -/
  | raised (tool : String)
deriving DecidableEq

/-- Control-flow skeleton of `RefactoringAgent._parse_and_execute_action`. -/
def RefactoringAgent.parseAndExecuteOutcome (text : String) (ws : Option String) :
    DispatchOutcome :=
  match parseAction text with
  | none => .noAction
  | some a =>
    let ps := addWorkspace a.params ws
    if toolNames.contains a.tool_name then
      if bindsOk a.tool_name (ps.map Prod.fst) then .returned a.tool_name true
      else .raised a.tool_name
    else .returned a.tool_name false

/-! ## The conversation loop

`RefactoringAgent.execute_refactoring_task`'s `for iteration in
range(max_iterations)` loop, with the model collaborator as an oracle
`replies : Nat → String` giving the reply to the (i+1)-st model call.
The loop is embedded with a structural fuel equal to the remaining
iterations (the source's cap is the literal `max_iterations = 15`).
Messages are append-only bookkeeping the claims do not inspect, except
for the corrective nudge, whose emission is recorded in the outcome. -/

/-- The completion indicators of the source, checked as substrings of
the lowercased reply. -/
def completionIndicators : List String :=
  ["refactoring complete", "task complete", "mission accomplished", "all changes applied"]

def containsCompletion (reply : String) : Bool :=
  completionIndicators.any (fun ind => strContains (pylower reply) ind)

inductive LoopOutcome where
  /-- The `for` loop ran out of iterations. -/
  | maxIter
  /-- A completion indicator was seen after a dispatched action. -/
  | completed
  /-- A reply produced no action; the loop broke (after appending one
  nudge turn when `iteration < max_iterations - 1`). -/
  | noActionStop (nudged : Bool)
  /-- The dispatch raised (argument binding `TypeError`), caught by the
  task-level handler, ending the task with a failure result. -/
  | errored
deriving DecidableEq

structure LoopResult where
  /-- Model calls performed (= Python's `iteration + 1` at exit). -/
  calls : Nat
  outcome : LoopOutcome
deriving DecidableEq

def maxIterations : Nat := 15

/-- One run of the loop body from iteration `i` with `fuel` iterations
remaining (`fuel = maxIterations - i` at every call from `loopRun`). -/
def loopGo (replies : Nat → String) (ws : String) : Nat → Nat → LoopResult
  | 0, i => ⟨i, .maxIter⟩
  | fuel + 1, i =>
    let r := replies i
    match RefactoringAgent.parseAndExecuteOutcome r (some ws) with
    | .noAction => ⟨i + 1, .noActionStop (decide (i < maxIterations - 1))⟩
    | .raised _ => ⟨i + 1, .errored⟩
    | .returned _ _ =>
      if containsCompletion r then ⟨i + 1, .completed⟩
      else loopGo replies ws fuel (i + 1)

/-- The conversation loop of `execute_refactoring_task`. -/
def loopRun (replies : Nat → String) (ws : String) : LoopResult :=
  loopGo replies ws maxIterations 0

/-! ## The batch plan runner

`ObservableGemRefactorRunner.run_gem_refactor_plan`,
`_check_dependencies` and `_generate_summary` from
`gem_refactor_runner.py`.  The per-task agent execution is external
(one full conversation loop plus provider traffic), so its success bit
is an oracle `exec : String → Bool` indexed by the task type.  Python's
`sorted(tasks, key=lambda t: t.priority)` is a stable ascending sort,
modeled by stable insertion sort.  Summary fields that are pure
presentation (timestamp, workspace string, float success rate, action
totals) are omitted. -/

structure GemRefactorTask where
  task_type : String
  priority : Int
  dependencies : Option (List String)
deriving DecidableEq

structure TaskRes where
  task_type : String
  success : Bool
deriving DecidableEq

structure PlanSummary where
  total_tasks : Nat
  successful_tasks : Nat
  failed_tasks : Nat
  task_results : List TaskRes
deriving DecidableEq

/-- Python truthiness of the `dependencies` field (`None` and `[]` are
falsy, so such tasks skip the dependency check). -/
def depsTruthy : Option (List String) → Bool
  | none => false
  | some l => !l.isEmpty

/-- `ObservableGemRefactorRunner._check_dependencies`: every declared
dependency must appear among the task types of the successful results
so far. -/
def check_dependencies (dependencies : List String) (completed_results : List TaskRes) : Bool :=
  dependencies.all (fun dep =>
    completed_results.any (fun r => r.success && r.task_type == dep))

/-- Stable insertion of a task into a priority-sorted list (the new
task goes after strictly smaller priorities and before equal ones,
since it occurred later in declaration order). -/
def insertTask (t : GemRefactorTask) : List GemRefactorTask → List GemRefactorTask
  | [] => [t]
  | u :: us => if u.priority < t.priority then u :: insertTask t us else t :: u :: us

/-- Python's stable `sorted(tasks, key=lambda t: t.priority)`. -/
def sortTasks (tasks : List GemRefactorTask) : List GemRefactorTask :=
  tasks.foldr insertTask []

/-- The accumulator of the task loop: results so far and the
`successful_tasks` counter. -/
def planStep (exec : String → Bool) (acc : List TaskRes × Nat) (task : GemRefactorTask) :
    List TaskRes × Nat :=
  if depsTruthy task.dependencies && !(check_dependencies (task.dependencies.getD []) acc.1) then
    acc
  else
    let res : TaskRes := ⟨task.task_type, exec task.task_type⟩
    (acc.1 ++ [res], acc.2 + (if res.success then 1 else 0))

/-- `run_gem_refactor_plan` followed by `_generate_summary`: sort by
priority, run each eligible task, skip tasks with unmet dependencies
(appending no result), and fold the counts, with
`failed_tasks = total_tasks - successful_tasks` and
`total_tasks = len(sorted_tasks)`. -/
def run_gem_refactor_plan (tasks : List GemRefactorTask) (exec : String → Bool) :
    PlanSummary :=
  let sorted_tasks := sortTasks tasks
  let folded := sorted_tasks.foldl (planStep exec) ([], 0)
  { total_tasks := sorted_tasks.length
    successful_tasks := folded.2
    failed_tasks := sorted_tasks.length - folded.2
    task_results := folded.1 }

/-! ## Characterizations used by the claim statements

Small derived definitions the theorems below quantify over: the
"ACTION: line" predicate and the last-action-name function (stating the
corrected parser-suppression condition), and a Boolean view of the
dispatch trichotomy. -/

/-- A reply line that the parser treats as an action line (the source
strips the line before testing the marker). -/
def isActionLine (l : String) : Bool :=
  pyStartsWith (pystrip l) "ACTION:"

/-- The tool name an action line contributes (delete every occurrence
of the marker, then strip — exactly the source's
`line.replace('ACTION:', '').strip()`). -/
def actionNameOf (l : String) : String :=
  pystrip (pyreplace (pystrip l) "ACTION:" "")

/-- `Option.orElse` with eager arguments (the first option when it is
`some`, else the second). -/
def orElseO {α : Type} : Option α → Option α → Option α
  | some x, _ => some x
  | none, d => d

/-- The last element of a list, as an option. -/
def lastOf {α : Type} : List α → Option α
  | [] => none
  | a :: as => orElseO (lastOf as) (some a)

/-- The tool name contributed by the last action line of a reply's
lines (the "last one wins" rule). -/
def lastActionName (lines : List String) : Option String :=
  lastOf (lines.filterMap (fun l => if isActionLine l then some (actionNameOf l) else none))

/-- Did the dispatch produce a returned record (as opposed to no action
or an escaped exception)? -/
def isReturned : DispatchOutcome → Bool
  | .returned _ _ => true
  | _ => false

/-! ## Helper lemmas -/

theorem univNLAux_no_cr : ∀ l : List Char, '\r' ∉ l → univNLAux l = l := by
  intro l
  induction l with
  | nil => intro _; rfl
  | cons c rest ih =>
    intro h
    have hc : c ≠ '\r' := fun hc => h (hc ▸ List.mem_cons_self c rest)
    cases rest with
    | nil => simp [univNLAux, hc]
    | cons d t =>
      have hrest : '\r' ∉ d :: t := fun hm => h (List.mem_cons_of_mem c hm)
      simp [univNLAux, hc, ih hrest]

theorem universalNewlines_no_cr (s : String) (h : '\r' ∉ s.data) :
    universalNewlines s = s := by
  unfold universalNewlines
  rw [univNLAux_no_cr s.data h]

theorem orElseO_none {α : Type} (o : Option α) : orElseO o none = o := by
  cases o <;> rfl

/-- A parser step changes `tool_name` and `action_found` exactly on
action lines. -/
theorem stepLine_fields (jdec : String → Option Params) (st : PState) (l : String) :
    (stepLine jdec st l).tool_name =
      (if isActionLine l then some (actionNameOf l) else st.tool_name) ∧
    (stepLine jdec st l).action_found = (st.action_found || isActionLine l) := by
  unfold stepLine isActionLine actionNameOf
  by_cases h : pyStartsWith (pystrip l) "ACTION:" = true
  · simp [h]
  · have h' : pyStartsWith (pystrip l) "ACTION:" = false := by
      revert h; cases pyStartsWith (pystrip l) "ACTION:" <;> simp
    simp only [h', Bool.false_eq_true, if_false, Bool.or_false]
    constructor
    · split
      · split <;> rfl
      · split
        · rfl
        · rfl
    · split
      · split <;> rfl
      · split
        · rfl
        · rfl

theorem lastActionName_cons_action (l : String) (ls : List String)
    (h : isActionLine l = true) :
    lastActionName (l :: ls) = orElseO (lastActionName ls) (some (actionNameOf l)) := by
  simp [lastActionName, List.filterMap_cons, h, lastOf]

theorem lastActionName_cons_other (l : String) (ls : List String)
    (h : isActionLine l = false) :
    lastActionName (l :: ls) = lastActionName ls := by
  simp [lastActionName, List.filterMap_cons, h]

/-- Invariant of the parser's line fold: the final tool name is the one
contributed by the last action line, and `action_found` records whether
any action line occurred. -/
theorem parseFold_fields (jdec : String → Option Params) :
    ∀ (lines : List String) (st : PState),
    ((lines.foldl (stepLine jdec) st).tool_name
        = orElseO (lastActionName lines) st.tool_name) ∧
    ((lines.foldl (stepLine jdec) st).action_found
        = (st.action_found || lines.any isActionLine)) := by
  intro lines
  induction lines with
  | nil => intro st; simp [lastActionName, lastOf, orElseO]
  | cons l ls ih =>
    intro st
    obtain ⟨ihn, ihf⟩ := ih (stepLine jdec st l)
    obtain ⟨sn, sf⟩ := stepLine_fields jdec st l
    constructor
    · rw [List.foldl_cons, ihn, sn]
      by_cases h : isActionLine l = true
      · rw [if_pos h, lastActionName_cons_action l ls h]
        cases lastActionName ls <;> simp [orElseO]
      · have h' : isActionLine l = false := by
          revert h; cases isActionLine l <;> simp
        rw [if_neg (by simp [h']), lastActionName_cons_other l ls h']
    · rw [List.foldl_cons, ihf, sf]
      simp [List.any_cons, Bool.or_assoc]

theorem lastActionName_some_any : ∀ (lines : List String) (t : String),
    lastActionName lines = some t → lines.any isActionLine = true := by
  intro lines
  induction lines with
  | nil => intro t h; simp [lastActionName, lastOf] at h
  | cons l ls ih =>
    intro t h
    by_cases hl : isActionLine l = true
    · simp [List.any_cons, hl]
    · have hl' : isActionLine l = false := by
        revert hl; cases isActionLine l <;> simp
      rw [lastActionName_cons_other l ls hl'] at h
      simp [List.any_cons, ih t h]

/-- A stripped line with the `PARAMS:` marker cannot also carry the
`ACTION:` marker (their first characters differ). -/
theorem params_not_action (s : String) (h : pyStartsWith s "PARAMS:" = true) :
    pyStartsWith s "ACTION:" = false := by
  unfold pyStartsWith at h ⊢
  rw [List.isPrefixOf_iff_prefix] at h
  by_contra hc
  rw [Bool.not_eq_false, List.isPrefixOf_iff_prefix] at hc
  obtain ⟨t1, h1⟩ := h
  obtain ⟨t2, h2⟩ := hc
  rw [← h1] at h2
  have e1 : "ACTION:".data = 'A' :: "CTION:".data := rfl
  have e2 : "PARAMS:".data = 'P' :: "ARAMS:".data := rfl
  rw [e1, e2, List.cons_append, List.cons_append] at h2
  injection h2 with hhead _
  exact absurd hhead (by decide)

theorem readResolved_error_ne_denied (fs : FS) (q : String) :
    (readResolved fs q).error ≠ some accessDeniedError := by
  unfold readResolved
  cases fs q with
  | none =>
    intro h
    simp only [Option.some.injEq] at h
    exact absurd h (by decide)
  | some d => simp

theorem writeResolved_ok (fs : FS) (q c : String) :
    (writeResolved fs q c).1.error ≠ some accessDeniedError ∧
    (writeResolved fs q c).1.success = true := by
  unfold writeResolved
  exact ⟨by simp, rfl⟩

theorem loopGo_calls_le (replies : Nat → String) (ws : String) :
    ∀ (fuel i : Nat), (loopGo replies ws fuel i).calls ≤ i + fuel := by
  intro fuel
  induction fuel with
  | zero => intro i; simp [loopGo]
  | succ f ih =>
    intro i
    unfold loopGo
    dsimp only
    cases h : RefactoringAgent.parseAndExecuteOutcome (replies i) (some ws) with
    | noAction => dsimp only; omega
    | raised t => dsimp only; omega
    | returned t k =>
      dsimp only
      by_cases hc : containsCompletion (replies i) = true
      · rw [if_pos hc]; dsimp only; omega
      · rw [if_neg hc]
        have := ih (i + 1)
        omega

theorem loopGo_all_returned (replies : Nat → String) (ws : String)
    (hall : ∀ j, j < 15 →
      isReturned (RefactoringAgent.parseAndExecuteOutcome (replies j) (some ws)) = true ∧
      containsCompletion (replies j) = false) :
    ∀ (fuel i : Nat), i + fuel = 15 →
    loopGo replies ws fuel i = ⟨15, .maxIter⟩ := by
  intro fuel
  induction fuel with
  | zero =>
    intro i hi
    have : i = 15 := by omega
    subst this
    rfl
  | succ f ih =>
    intro i hi
    have hi15 : i < 15 := by omega
    obtain ⟨hr, hc⟩ := hall i hi15
    unfold loopGo
    dsimp only
    cases h : RefactoringAgent.parseAndExecuteOutcome (replies i) (some ws) with
    | noAction => rw [h] at hr; simp [isReturned] at hr
    | raised t => rw [h] at hr; simp [isReturned] at hr
    | returned t k =>
      rw [if_neg (by rw [hc]; simp)]
      exact ih (i + 1) (by omega)

theorem loopGo_no_action_reach (replies : Nat → String) (ws : String) (k : Nat)
    (hk15 : k < 15)
    (hpre : ∀ j, j < k →
      isReturned (RefactoringAgent.parseAndExecuteOutcome (replies j) (some ws)) = true ∧
      containsCompletion (replies j) = false)
    (hk : RefactoringAgent.parseAndExecuteOutcome (replies k) (some ws) = .noAction) :
    ∀ (fuel i : Nat), i + fuel = 15 → i ≤ k →
    loopGo replies ws fuel i = ⟨k + 1, .noActionStop (decide (k < maxIterations - 1))⟩ := by
  intro fuel
  induction fuel with
  | zero => intro i h1 h2; omega
  | succ f ih =>
    intro i h1 h2
    unfold loopGo
    dsimp only
    by_cases hik : i = k
    · subst hik
      rw [hk]
    · have hlt : i < k := by omega
      obtain ⟨hr, hc⟩ := hpre i hlt
      cases h : RefactoringAgent.parseAndExecuteOutcome (replies i) (some ws) with
      | noAction => rw [h] at hr; simp [isReturned] at hr
      | raised t => rw [h] at hr; simp [isReturned] at hr
      | returned t kn =>
        rw [if_neg (by rw [hc]; simp)]
        exact ih (i + 1) (by omega) (by omega)

/-! ## Claim C1 -/

/-- Claim C1, counterexample.  The claim says a task skipped for an
unmet dependency is excluded from both the succeeded and the failed
tallies.  In the two-task plan where taskA depends on taskB and taskB
fails, the code produces `failed_tasks = 2` (the skipped taskA is
counted as failed, since `_generate_summary` computes
`failed_tasks = total_tasks - successful_tasks`), not `1` as the claim
requires; no separate skipped tally exists in the summary. -/
theorem plan_skip_in_failed_tally_cex :
    run_gem_refactor_plan [⟨"taskB", 1, none⟩, ⟨"taskA", 2, some ["taskB"]⟩] (fun _ => false)
      = ⟨2, 0, 2, [⟨"taskB", false⟩]⟩ ∧ (2 : Nat) ≠ 1 :=
  ⟨by decide, by decide⟩

/-- Claim C1, amended.  In a plan where taskA depends on taskB and
taskB's result has success = false, taskA is skipped: no result entry
for taskA is appended, `total_tasks` still counts taskA, and taskA is
excluded from the succeeded tally — but it is counted in the failed
tally, because `failed_tasks` is computed as
`total_tasks - successful_tasks`. -/
theorem plan_skips_task_with_failed_dependency (execOracle : String → Bool)
    (hb : execOracle "taskB" = false) :
    run_gem_refactor_plan [⟨"taskB", 1, none⟩, ⟨"taskA", 2, some ["taskB"]⟩] execOracle
      = ⟨2, 0, 2, [⟨"taskB", false⟩]⟩ := by
  simp [run_gem_refactor_plan, sortTasks, insertTask, planStep, depsTruthy,
        check_dependencies, hb]

/-- Witness for `plan_skips_task_with_failed_dependency`. -/
theorem plan_skips_task_with_failed_dependency_witness :
    run_gem_refactor_plan [⟨"taskB", 1, none⟩, ⟨"taskA", 2, some ["taskB"]⟩] (fun _ => false)
      = ⟨2, 0, 2, [⟨"taskB", false⟩]⟩ :=
  plan_skips_task_with_failed_dependency (fun _ => false) rfl

/-! ## Claim C2 -/

/-- Claim C2, counterexample.  The claim says the dispatch step never
propagates an exception to its caller.  But
`_parse_and_execute_action` calls `execute(**params)` with no guard:
for the action text `ACTION: read_file` with empty JSON params, the
params dict (after `workspace_dir` injection) lacks the required
`file_path` argument, the binding raises `TypeError`, and the exception
escapes the dispatcher (it is only caught by the task-level handler in
`execute_refactoring_task`). -/
theorem dispatch_param_binding_raises_cex :
    RefactoringAgent.parseAndExecuteOutcome "ACTION: read_file\nPARAMS: \x7b\x7d"
      (some "/tmp/ws") = .raised "read_file" := by
  decide

/-- Claim C2, amended.  Exceptions raised inside a tool's execution
body are absorbed by each tool's own blanket handler, and an unknown
tool name produces a failure record; but the dispatcher itself guards
nothing, so the guarantee only holds when the action's params bind to
the tool's signature.  Under that binding condition the dispatch always
returns a record and never raises. -/
theorem dispatch_no_raise_when_params_bind (text : String) (ws : Option String)
    (a : AgentAction)
    (hp : parseAction text = some a)
    (hb : bindsOk a.tool_name ((addWorkspace a.params ws).map Prod.fst) = true) :
    RefactoringAgent.parseAndExecuteOutcome text ws
      = .returned a.tool_name (toolNames.contains a.tool_name) := by
  unfold RefactoringAgent.parseAndExecuteOutcome
  rw [hp]
  dsimp only
  by_cases hk : toolNames.contains a.tool_name = true
  · rw [if_pos hk, if_pos hb, hk]
  · have hk' : toolNames.contains a.tool_name = false := by
      revert hk; cases toolNames.contains a.tool_name <;> simp
    rw [if_neg hk, hk']

/-- Witness for `dispatch_no_raise_when_params_bind`. -/
theorem dispatch_no_raise_when_params_bind_witness :
    RefactoringAgent.parseAndExecuteOutcome
      "ACTION: read_file\nPARAMS: \x7b\"file_path\": \"a.rb\"\x7d" (some "/tmp/ws")
      = .returned "read_file" (toolNames.contains "read_file") :=
  dispatch_no_raise_when_params_bind
    "ACTION: read_file\nPARAMS: \x7b\"file_path\": \"a.rb\"\x7d" (some "/tmp/ws")
    ⟨"read_file", [("file_path", "a.rb")], ""⟩ (by decide) (by decide)

/-! ## Claim C3 -/

/-- Claim C3 (code bug in the source, acknowledged by the spec).  The
claim requires `run_command` to restore the process working directory
on every exit path.  The source restores it only on the normal path:
when the 60-second timeout fires with the process started in
`/home/user` and `workspace_dir = /tmp/ws`, the tool returns the
timeout failure with the working directory still `/tmp/ws`.  The third
conjunct shows the normal path does restore, isolating the bug to the
handler paths. -/
theorem run_command_timeout_cwd_not_restored :
    RunCommandTool.execute "/home/user" "bundle exec rake test" (some "/tmp/ws")
        (fun _ => true) .timedOut
      = ({ success := false, error := some commandTimedOutError }, "/tmp/ws") ∧
    ("/tmp/ws" : String) ≠ "/home/user" ∧
    (RunCommandTool.execute "/home/user" "bundle exec rake test" (some "/tmp/ws")
        (fun _ => true) (.completed 0 "" "")).2 = "/home/user" :=
  ⟨by decide, by decide, by decide⟩

/-! ## Claim C4 -/

/-- Claim C4, counterexample.  The claim says the write/read round trip
returns the content exactly, for all content.  The source writes and
reads in text mode with default newline handling, so on POSIX a
carriage return written as part of the content is translated to a line
feed by the read's universal-newline decoding: writing the two
characters x-CR and reading them back yields x-LF. -/
theorem write_read_carriage_return_cex :
    (FileWriteTool.execute (fun _ => none) "/tmp/ws" "a.txt" "x\r" (some "/tmp/ws")).1.success
      = true ∧
    (FileReadTool.execute
        (FileWriteTool.execute (fun _ => none) "/tmp/ws" "a.txt" "x\r" (some "/tmp/ws")).2
        "/tmp/ws" "a.txt" (some "/tmp/ws")).content = some "x\n" ∧
    ("x\n" : String) ≠ "x\r" :=
  ⟨by decide, by decide, by decide⟩

/-- Claim C4, amended.  For every content and relative path inside a
truthy workspace, `write_file` then `read_file` succeeds and returns
the content with universal-newline translation applied (CR-LF and lone
CR become LF); the content is returned exactly when it contains no
carriage return. -/
theorem write_read_roundtrip_universal_newlines (fs : FS) (cwd ws p c : String)
    (hrel : os_isabs p = false) (hws : ws ≠ "") :
    (FileWriteTool.execute fs cwd p c (some ws)).1.success = true ∧
    (FileReadTool.execute (FileWriteTool.execute fs cwd p c (some ws)).2 cwd p (some ws)).success
      = true ∧
    (FileReadTool.execute (FileWriteTool.execute fs cwd p c (some ws)).2 cwd p (some ws)).content
      = some (universalNewlines c) ∧
    ('\r' ∉ c.data →
      (FileReadTool.execute (FileWriteTool.execute fs cwd p c (some ws)).2 cwd p
        (some ws)).content = some c) := by
  have hwt : wsTruthy (some ws) = true := by simp [wsTruthy, hws]
  have hcond : (wsTruthy (some ws) && os_isabs p) = false := by simp [hrel]
  unfold FileWriteTool.execute FileReadTool.execute
  rw [hcond]
  simp only [Bool.false_eq_true, if_false, hwt, if_true]
  unfold writeResolved readResolved
  simp only [fsWrite, Option.getD_some, eq_self_iff_true, if_true]
  refine ⟨trivial, trivial, trivial, fun h => ?_⟩
  show some (universalNewlines c) = some c
  rw [universalNewlines_no_cr c h]

/-- Witness for `write_read_roundtrip_universal_newlines`. -/
theorem write_read_roundtrip_universal_newlines_witness :
    (FileReadTool.execute
      (FileWriteTool.execute (fun _ => none) "/tmp/ws" "lib/a.rb" "hello" (some "/tmp/ws")).2
      "/tmp/ws" "lib/a.rb" (some "/tmp/ws")).content = some "hello" :=
  (write_read_roundtrip_universal_newlines (fun _ => none) "/tmp/ws" "/tmp/ws" "lib/a.rb"
    "hello" (by decide) (by decide)).2.2.2 (by decide)

/-! ## Claim C5 -/

/-- Claim C5 (confirmed).  With workspace root `/tmp/ws`, reading the
absolute path `/etc/passwd` and writing it both return success = false
with the access-denied error, and the write leaves the filesystem
untouched — for every filesystem state and process working
directory. -/
theorem absolute_path_outside_workspace_denied (fs : FS) (cwd : String) :
    FileReadTool.execute fs cwd "/etc/passwd" (some "/tmp/ws")
      = { success := false, error := some accessDeniedError } ∧
    FileWriteTool.execute fs cwd "/etc/passwd" "x" (some "/tmp/ws")
      = ({ success := false, error := some accessDeniedError }, fs) :=
  ⟨rfl, rfl⟩

/-! ## Claim C6 -/

/-- Claim C6, counterexample.  The claim says the parser returns
nothing iff no line begins with the marker.  The reply consisting of
the single line `ACTION:` begins with the marker, yet the parser
returns nothing: the extracted tool name is the empty string, which
fails the source's final truthiness gate `if action_found and
tool_name`. -/
theorem parser_empty_action_marker_cex :
    ¬ (parseAction "ACTION:" = none ↔
        ∀ l ∈ pysplitNL "ACTION:", pyStartsWith l "ACTION:" = false) := by
  decide

/-- Claim C6, amended.  The parser returns nothing iff either no
(whitespace-stripped) line of the reply begins with the `ACTION:`
marker, or the last such line yields an empty tool name after deleting
every occurrence of the marker and stripping — i.e. iff the last
action-line name, defaulted to the empty string, is empty. -/
theorem parser_none_iff_last_action_name_empty (text : String) :
    parseAction text = none ↔ (lastActionName (pysplitNL text)).getD "" = "" := by
  unfold parseAction parseActionWith parseLinesWith finalize
  obtain ⟨hn, hf⟩ := parseFold_fields json_loads (pysplitNL text) initPState
  rw [hn, hf, show initPState.tool_name = none from rfl, orElseO_none,
      show initPState.action_found = false from rfl, Bool.false_or]
  cases hl : lastActionName (pysplitNL text) with
  | none => simp
  | some t =>
    rw [lastActionName_some_any (pysplitNL text) t hl]
    by_cases ht : t = ""
    · subst ht; simp
    · simp [ht]

/-! ## Claim C7 -/

/-- Claim C7, counterexample.  The claim says every reply containing an
invalid-JSON `PARAMS:` line parses to an action with empty params.  But
a later `PARAMS:` line overwrites the empty mapping: with an invalid
`PARAMS:` line followed by a valid one, the resulting action carries
the later params, not the empty mapping. -/
theorem params_overwritten_by_later_line_cex :
    parseAction "ACTION: read_file\nPARAMS: notjson\nPARAMS: \x7b\"a\": \"b\"\x7d"
      = some ⟨"read_file", [("a", "b")], ""⟩ ∧
    json_loads "notjson" = none ∧
    ([("a", "b")] : Params) ≠ [] :=
  ⟨by decide, by decide, by decide⟩

/-- Claim C7, amended.  When an `ACTION:` line with a nonempty tool
name is followed by a `PARAMS:` line whose remainder the JSON decoder
rejects, and that is the last params line, parsing yields the action
with the empty params mapping; the decode failure is swallowed (the
parser is a total function, so nothing is ever raised).  Stated for an
arbitrary decoder, so it covers `json_loads` in particular. -/
theorem invalid_params_collapse_to_empty_mapping (jdec : String → Option Params) (l : String)
    (hpl : pyStartsWith (pystrip l) "PARAMS:" = true)
    (hdec : jdec (pystrip (pyreplace (pystrip l) "PARAMS:" "")) = none) :
    parseLinesWith jdec ["ACTION: read_file", l] = some ⟨"read_file", [], ""⟩ := by
  have hal : pyStartsWith (pystrip l) "ACTION:" = false := params_not_action _ hpl
  unfold parseLinesWith
  rw [List.foldl_cons, List.foldl_cons, List.foldl_nil]
  have h1 : stepLine jdec initPState "ACTION: read_file" = ⟨true, some "read_file", [], ""⟩ :=
    rfl
  rw [h1]
  unfold stepLine
  dsimp only
  rw [hal, hpl]
  simp only [Bool.false_eq_true, if_false, Bool.true_and, if_true, hdec]
  rfl

/-- Witness for `invalid_params_collapse_to_empty_mapping`. -/
theorem invalid_params_collapse_to_empty_mapping_witness :
    parseLinesWith json_loads ["ACTION: read_file", "PARAMS: notjson"]
      = some ⟨"read_file", [], ""⟩ :=
  invalid_params_collapse_to_empty_mapping json_loads "PARAMS: notjson"
    (by decide) (by decide)

/-! ## Claim C8 -/

/-- Claim C8, counterexample.  The claim says a loop whose replies
never contain a completion phrase terminates after exactly 15
iterations.  A reply with no action line contains no completion phrase
either, yet the loop breaks after a single iteration (one model call),
not 15. -/
theorem loop_stops_before_cap_cex :
    containsCompletion "Let me think about the code some more." = false ∧
    loopRun (fun _ => "Let me think about the code some more.") "/tmp/ws"
      = ⟨1, .noActionStop true⟩ ∧
    (1 : Nat) ≠ 15 :=
  ⟨by decide, by decide, by decide⟩

/-- Claim C8, amended.  The loop never performs a 16th model call: for
every reply sequence the call count is at most 15.  It runs for exactly
15 iterations (exiting through the iteration cap) when every reply
dispatches an action and none contains a completion phrase; a reply
with no action (or a dispatch that raises) ends the loop early. -/
theorem loop_at_most_fifteen_calls (replies : Nat → String) (ws : String) :
    (loopRun replies ws).calls ≤ 15 ∧
    ((∀ j, j < 15 →
        isReturned (RefactoringAgent.parseAndExecuteOutcome (replies j) (some ws)) = true ∧
        containsCompletion (replies j) = false) →
      loopRun replies ws = ⟨15, .maxIter⟩) := by
  constructor
  · have h := loopGo_calls_le replies ws maxIterations 0
    unfold loopRun
    simpa [maxIterations] using h
  · intro hall
    exact loopGo_all_returned replies ws hall maxIterations 0 rfl

/-- Witness for `loop_at_most_fifteen_calls`. -/
theorem loop_at_most_fifteen_calls_witness :
    (loopRun (fun _ => "ACTION: list_directory\nPARAMS: \x7b\x7d") "/tmp/ws").calls ≤ 15 ∧
    loopRun (fun _ => "ACTION: list_directory\nPARAMS: \x7b\x7d") "/tmp/ws"
      = ⟨15, .maxIter⟩ :=
  ⟨(loop_at_most_fifteen_calls (fun _ => "ACTION: list_directory\nPARAMS: \x7b\x7d")
      "/tmp/ws").1,
   (loop_at_most_fifteen_calls (fun _ => "ACTION: list_directory\nPARAMS: \x7b\x7d")
      "/tmp/ws").2 (by decide)⟩

/-! ## Claim C9 -/

/-- Claim C9 (confirmed).  On the first iteration whose reply parses to
no action (index k, every earlier reply having dispatched an action
without a completion phrase), the loop terminates the task with exactly
k+1 model calls — it performs no further model call — after appending
one corrective nudge turn iff iterations remain (k < cap - 1).  In
particular a second no-action turn is never reached. -/
theorem loop_fail_fast_on_first_no_action (replies : Nat → String) (ws : String) (k : Nat)
    (hk15 : k < 15)
    (hpre : ∀ j, j < k →
      isReturned (RefactoringAgent.parseAndExecuteOutcome (replies j) (some ws)) = true ∧
      containsCompletion (replies j) = false)
    (hnoact : RefactoringAgent.parseAndExecuteOutcome (replies k) (some ws) = .noAction) :
    loopRun replies ws = ⟨k + 1, .noActionStop (decide (k < maxIterations - 1))⟩ :=
  loopGo_no_action_reach replies ws k hk15 hpre hnoact maxIterations 0 rfl (Nat.zero_le k)

/-- Witness for `loop_fail_fast_on_first_no_action`: an action reply
followed by a no-action reply stops the loop at two model calls, with
the nudge appended. -/
theorem loop_fail_fast_on_first_no_action_witness :
    loopRun
      (fun j => if j = 0 then "ACTION: list_directory\nPARAMS: \x7b\x7d"
                else "Thinking out loud, nothing to run.") "/tmp/ws"
      = ⟨2, .noActionStop true⟩ :=
  loop_fail_fast_on_first_no_action
    (fun j => if j = 0 then "ACTION: list_directory\nPARAMS: \x7b\x7d"
              else "Thinking out loud, nothing to run.") "/tmp/ws" 1
    (by decide) (by decide) (by decide)

/-! ## Claim C10 -/

/-- Claim C10 (confirmed).  The containment check applies only to
absolute paths: every relative `file_path` is joined against the
workspace root and operated on with no denial possible (the
access-denied result arises only in the absolute branch), and the
write succeeds.  Concretely, the relative path `../outside.txt` under
workspace `/tmp/ws` resolves to `/tmp/outside.txt`, which is outside
the root (it fails the source's own prefix test), and is nevertheless
written and then read back successfully. -/
theorem relative_path_bypasses_containment (fs : FS) (cwd ws p c : String)
    (hrel : os_isabs p = false) :
    (FileReadTool.execute fs cwd p (some ws)).error ≠ some accessDeniedError ∧
    (FileWriteTool.execute fs cwd p c (some ws)).1.error ≠ some accessDeniedError ∧
    (FileWriteTool.execute fs cwd p c (some ws)).1.success = true ∧
    os_abspath "/tmp/ws" (os_join "/tmp/ws" "../outside.txt") = "/tmp/outside.txt" ∧
    pyStartsWith "/tmp/outside.txt" (os_abspath "/tmp/ws" "/tmp/ws") = false ∧
    ((FileWriteTool.execute (fun _ => none) "/tmp/ws" "../outside.txt" "secret"
        (some "/tmp/ws")).2) "/tmp/outside.txt" = some "secret" ∧
    (FileReadTool.execute
      ((FileWriteTool.execute (fun _ => none) "/tmp/ws" "../outside.txt" "secret"
          (some "/tmp/ws")).2)
      "/tmp/ws" "../outside.txt" (some "/tmp/ws")).success = true := by
  have hcond : (wsTruthy (some ws) && os_isabs p) = false := by simp [hrel]
  have hgen : (FileReadTool.execute fs cwd p (some ws)).error ≠ some accessDeniedError ∧
      (FileWriteTool.execute fs cwd p c (some ws)).1.error ≠ some accessDeniedError ∧
      (FileWriteTool.execute fs cwd p c (some ws)).1.success = true := by
    unfold FileReadTool.execute FileWriteTool.execute
    rw [hcond]
    simp only [Bool.false_eq_true, if_false]
    by_cases hw : wsTruthy (some ws) = true
    · simp only [hw, eq_self_iff_true, if_true]
      exact ⟨readResolved_error_ne_denied _ _, (writeResolved_ok _ _ _).1,
             (writeResolved_ok _ _ _).2⟩
    · have hw2 : wsTruthy (some ws) = false := by
        revert hw; cases wsTruthy (some ws) <;> simp
      simp only [hw2, Bool.false_eq_true, if_false]
      exact ⟨readResolved_error_ne_denied _ _, (writeResolved_ok _ _ _).1,
             (writeResolved_ok _ _ _).2⟩
  exact ⟨hgen.1, hgen.2.1, hgen.2.2, by decide, by decide, by decide, by decide⟩

/-- Witness for `relative_path_bypasses_containment`. -/
theorem relative_path_bypasses_containment_witness :
    ((FileWriteTool.execute (fun _ => none) "/tmp/ws" "../outside.txt" "secret"
        (some "/tmp/ws")).2) "/tmp/outside.txt" = some "secret" :=
  (relative_path_bypasses_containment (fun _ => none) "/tmp/ws" "/tmp/ws" "../outside.txt"
    "secret" (by decide)).2.2.2.2.2.1
